import Mathlib

/-!
Shallow embedding of the DmMruSwitch plugin core (src/index.ts):
the MRU history store, the cycle-session state machine, and the
overlay pagination computation.  Module-level mutable variables become
fields of `PluginState`; the external Discord stores (`ChannelStore`,
`SelectedChannelStore`) become an explicit environment `Env`; the two
external side effects that matter to the spec — `pushChannelToFront`
invocations ("promote") and `ChannelRouter.transitionToChannel`
invocations — are recorded in ghost trace fields `promoteLog` / `navLog`.
-/

namespace DmMruSwitch

/-- A Discord channel as seen by the plugin: only the `isDM()` /
`isGroupDM()` capability queries are consulted. -/
structure Channel where
  isDM : Bool
  isGroupDM : Bool
deriving Repr, DecidableEq

/-- External environment: `ChannelStore.getChannel`, `ChannelStore.hasChannel`
and `SelectedChannelStore.getChannelId()`. -/
structure Env where
  getChannel : String → Option Channel
  hasChannel : String → Bool
  currentChannelId : Option String

/-- The one plugin setting that affects core state/effects:
`instantSwitch` ("Switch immediately on Tab instead of on Ctrl release"). -/
structure Settings where
  instantSwitch : Bool
deriving Repr, DecidableEq

/-- The module-level mutable state of src/index.ts
(`mruDmChannelIds`, `isCyclingSessionActive`, `suppressMruWhileCycling`,
`cycleSnapshot`, `cycleIndex`), plus ghost logs of the external calls to
`pushChannelToFront` (promote) and `ChannelRouter.transitionToChannel`. -/
structure PluginState where
  mruDmChannelIds : List String
  isCyclingSessionActive : Bool
  suppressMruWhileCycling : Bool
  cycleSnapshot : List String
  cycleIndex : Int
  promoteLog : List String
  navLog : List String
deriving Repr, DecidableEq

/-- The initial values of the module-level variables. -/
def initialState : PluginState :=
  { mruDmChannelIds := []
    isCyclingSessionActive := false
    suppressMruWhileCycling := false
    cycleSnapshot := []
    cycleIndex := -1
    promoteLog := []
    navLog := [] }

/-- The bound `const MAX_HISTORY = 50`. -/
def MAX_HISTORY : Nat := 50

/-- Predicate `isDirectMessageChannel(channelId)`: false on a falsy id (null/undefined/""),
false when `ChannelStore.getChannel` finds nothing, else `isDM() || isGroupDM()`. -/
def isDirectMessageChannel (env : Env) (channelId : Option String) : Bool :=
  match channelId with
  | none => false
  | some cid =>
    if cid == "" then false
    else
      match env.getChannel cid with
      | none => false
      | some ch => ch.isDM || ch.isGroupDM

/-- JS array indexing `l[i]` with a possibly negative `Int` index:
negative indices read as `undefined` (`none`). -/
def snapAt (l : List String) (i : Int) : Option String :=
  if 0 ≤ i then l.get? i.toNat else none

/-- Promote `pushChannelToFront(channelId)`: filter out existing occurrences,
unshift to the front, truncate to `MAX_HISTORY`.  The ghost `promoteLog`
records the invocation. -/
def pushChannelToFront (s : PluginState) (channelId : String) : PluginState :=
  { s with
    mruDmChannelIds :=
      (channelId :: s.mruDmChannelIds.filter (fun id => id != channelId)).take MAX_HISTORY
    promoteLog := s.promoteLog ++ [channelId] }

/-- The loop body of `sanitizeHistory`: `seen` is the `Set` of already kept
ids, `result` the accumulator; the loop breaks once `result` reaches
`MAX_HISTORY` entries. -/
def sanitizeLoop (env : Env) : List String → List String → List String → List String
  | [], _, result => result
  | id :: rest, seen, result =>
    if id == "" || seen.contains id then sanitizeLoop env rest seen result
    else if !env.hasChannel id then sanitizeLoop env rest seen result
    else if !isDirectMessageChannel env (some id) then sanitizeLoop env rest seen result
    else
      if MAX_HISTORY ≤ (result ++ [id]).length then result ++ [id]
      else sanitizeLoop env rest (id :: seen) (result ++ [id])

/-- Sanitize `sanitizeHistory(ids)`: run the loop with empty seen-set and
accumulator. -/
def sanitizeHistory (env : Env) (ids : List String) : List String :=
  sanitizeLoop env ids [] []

/-- Gesture begin `beginCycleSession()`: no-op when already active; otherwise set both
flags, snapshot `sanitizeHistory([current-if-DM, ...mruDmChannelIds])`,
and anchor the cursor at 0. -/
def beginCycleSession (env : Env) (s : PluginState) : PluginState :=
  if s.isCyclingSessionActive then s
  else
    let s1 := { s with isCyclingSessionActive := true, suppressMruWhileCycling := true }
    let currentId := env.currentChannelId
    let snap := sanitizeHistory env
      ((if isDirectMessageChannel env currentId then [currentId.getD ("")] else [])
        ++ s1.mruDmChannelIds)
    { s1 with cycleSnapshot := snap, cycleIndex := 0 }

/-- The TS direction union type `1 | -1` of `stepCycle`. -/
inductive Direction where
  | forward
  | backward
deriving Repr, DecidableEq

/-- The integer delta of a direction. -/
def Direction.delta : Direction → Int
  | .forward => 1
  | .backward => -1

/-- The cursor assignment of `stepCycle`:
`cycleIndex = (cycleIndex + direction + total) % total` with JS truncating
remainder, where `total` is the snapshot length. -/
def stepAssign (s : PluginState) (direction : Direction) : PluginState :=
  { s with
    cycleIndex := (s.cycleIndex + direction.delta + (s.cycleSnapshot.length : Int)).tmod
      (s.cycleSnapshot.length : Int) }

/-- Gesture step `stepCycle(direction)`: no-op when inactive or the snapshot has ≤ 1
entries; otherwise wrap the cursor with JS `%` (truncating remainder) and,
when the target is a live channel, optionally navigate (`instantSwitch`). -/
def stepCycle (env : Env) (stg : Settings) (s : PluginState) (direction : Direction) :
    PluginState :=
  if !s.isCyclingSessionActive || s.cycleSnapshot.length == 0 then s
  else if s.cycleSnapshot.length ≤ 1 then s
  else
    match snapAt (stepAssign s direction).cycleSnapshot (stepAssign s direction).cycleIndex with
    | none => stepAssign s direction
    | some targetId =>
      if targetId == "" || !env.hasChannel targetId then stepAssign s direction
      else if stg.instantSwitch then
        { stepAssign s direction with navLog := (stepAssign s direction).navLog ++ [targetId] }
      else stepAssign s direction

/-- The commit step of `endCycleSession`: read `cycleSnapshot[cycleIndex]`;
when the entry is truthy, navigate to it when `instantSwitch` is off and
promote it via `pushChannelToFront`. -/
def commitSelected (stg : Settings) (s : PluginState) : PluginState :=
  match snapAt s.cycleSnapshot s.cycleIndex with
  | none => s
  | some selected =>
    if selected == "" then s
    else if !stg.instantSwitch then
      pushChannelToFront { s with navLog := s.navLog ++ [selected] } selected
    else pushChannelToFront s selected

/-- Gesture end `endCycleSession()`: no-op when idle; otherwise drop both flags, commit
the cursor's target (when the cursor is a valid index and the entry truthy)
via `pushChannelToFront`, navigating first when `instantSwitch` is off, then
reset snapshot and cursor. -/
def endCycleSession (stg : Settings) (s : PluginState) : PluginState :=
  if !s.isCyclingSessionActive then s
  else
    { (if 0 ≤ s.cycleIndex ∧ s.cycleIndex < (s.cycleSnapshot.length : Int) then
        commitSelected stg
          { s with isCyclingSessionActive := false, suppressMruWhileCycling := false }
      else
        { s with isCyclingSessionActive := false, suppressMruWhileCycling := false }) with
      cycleSnapshot := [], cycleIndex := -1 }

/-- The `clearMru` settings button's `onClick`: empties the MRU list and
invalidates the snapshot and cursor.  It does NOT touch the two session
flags. -/
def clearMru (s : PluginState) : PluginState :=
  { s with mruDmChannelIds := [], cycleSnapshot := [], cycleIndex := -1 }

/-- The plugin's `stop()` lifecycle hook (state part): resets both flags,
the snapshot and the cursor. -/
def stopPlugin (s : PluginState) : PluginState :=
  { s with
    isCyclingSessionActive := false
    suppressMruWhileCycling := false
    cycleSnapshot := []
    cycleIndex := -1 }

/-- The `CHANNEL_SELECT` flux handler: suppressed while cycling; otherwise
promotes a truthy, DM-eligible channel id. -/
def channelSelect (env : Env) (s : PluginState) (channelId : Option String) : PluginState :=
  if s.suppressMruWhileCycling then s
  else
    match channelId with
    | none => s
    | some cid =>
      if cid == "" then s
      else if !isDirectMessageChannel env (some cid) then s
      else pushChannelToFront s cid

/-- The `GUILD_SELECT` flux handler: while cycling, bounce navigation back
to the cursor's target. -/
def guildSelect (s : PluginState) (guildId : Option String) : PluginState :=
  if !s.isCyclingSessionActive then s
  else
    match guildId with
    | none => s
    | some _ =>
      match snapAt s.cycleSnapshot s.cycleIndex with
      | none => s
      | some targetId =>
        if targetId == "" then s
        else { s with navLog := s.navLog ++ [targetId] }

/-- The render descriptor computed by `OverlayContent` in row mode:
the capped working list, the page count, the current page and the visible
slice. -/
structure RowWindow where
  visibleList : List String
  pageCount : Nat
  currentPage : Nat
  pageItems : List String
deriving Repr, DecidableEq

/-- The row-mode pagination computation of `OverlayContent`
(`mode === "row"`): `pageSize = clamp(rowLength, 3, 7)`,
`visibleList = snapshot.slice(0, 2*pageSize)`, two pages iff the working
list exceeds one page, `currentPage = min(pageCount-1, floor(cursor/pageSize))`
(a negative cursor reads as 0), window = `visibleList.slice(start, end)`. -/
def computeRowWindow (snapshot : List String) (cycleIndex : Int) (rowLength : Int) :
    RowWindow :=
  let maxCount : Int := max 3 (min 7 rowLength)
  let pageSize : Nat := maxCount.toNat
  let totalSlots : Nat := pageSize * 2
  let visibleList := snapshot.take totalSlots
  let pageCount : Nat := if pageSize < visibleList.length then 2 else 1
  let currentPage : Nat :=
    min (pageCount - 1) ((if 0 ≤ cycleIndex then cycleIndex.toNat else 0) / pageSize)
  let start := currentPage * pageSize
  let stop := min (start + pageSize) visibleList.length
  { visibleList := visibleList
    pageCount := pageCount
    currentPage := currentPage
    pageItems := (visibleList.take stop).drop start }

/-! Specification-side definitions used to characterise `sanitizeHistory`,
and the operation alphabet for the flag invariant. -/

/-- The per-id filter of `sanitizeHistory`, independent of the seen-set:
the id is truthy, the channel exists, and it is a 1:1 or group DM. -/
def goodId (env : Env) (id : String) : Bool :=
  id != "" && env.hasChannel id && isDirectMessageChannel env (some id)

/-- The sanitize loop without the `MAX_HISTORY` cap, carrying the seen-set. -/
def dedupSeen (env : Env) : List String → List String → List String
  | [], _ => []
  | id :: rest, seen =>
    if goodId env id && !seen.contains id then id :: dedupSeen env rest (id :: seen)
    else dedupSeen env rest seen

/-- Canonical first-occurrence deduplication: keep each element's first
occurrence, drop later repeats. -/
def dedupFirst : List String → List String
  | [] => []
  | x :: xs => x :: dedupFirst (xs.filter (fun y => y != x))
termination_by l => l.length
decreasing_by
  simp only [List.length_cons]
  exact Nat.lt_succ_of_le (List.length_filter_le _ _)

/-- The clamp applied to the `overlayRowLength` slider value. -/
def clampRowLength (rowLength : Int) : Nat := (max 3 (min 7 rowLength)).toNat

/-- One externally delivered signal, closing over its environment. -/
inductive Op where
  | opBegin (env : Env)
  | opStep (env : Env) (stg : Settings) (d : Direction)
  | opEnd (stg : Settings)
  | opClear
  | opStop
  | opChannelSelect (env : Env) (cid : Option String)
  | opGuildSelect (gid : Option String)

/-- Interpretation of one signal on the plugin state. -/
def applyOp : Op → PluginState → PluginState
  | .opBegin env, s => beginCycleSession env s
  | .opStep env stg d, s => stepCycle env stg s d
  | .opEnd stg, s => endCycleSession stg s
  | .opClear, s => clearMru s
  | .opStop, s => stopPlugin s
  | .opChannelSelect env cid, s => channelSelect env s cid
  | .opGuildSelect gid, s => guildSelect s gid

/-- The implicit coupling of the two session flags. -/
def flagsConsistent (s : PluginState) : Prop :=
  s.suppressMruWhileCycling = s.isCyclingSessionActive

/-! Concrete instances used by scenario theorems and witnesses. -/

/-- Concrete directory: channels "A", "B", "C" exist and are 1:1 DMs; the
currently selected channel is "A". -/
def envABC : Env :=
  { getChannel := fun id =>
      if id == "A" || id == "B" || id == "C" then some { isDM := true, isGroupDM := false }
      else none
    hasChannel := fun id => id == "A" || id == "B" || id == "C"
    currentChannelId := some ("A") }

/-- Concrete directory with no channels at all and no selected channel. -/
def envNone : Env :=
  { getChannel := fun _ => none
    hasChannel := fun _ => false
    currentChannelId := none }

/-- Settings with `instantSwitch` off (commit navigation on Ctrl release). -/
def stgOff : Settings := { instantSwitch := false }

/-- Idle state whose MRU history is `["B", "C"]`. -/
def s0BC : PluginState := { initialState with mruDmChannelIds := ["B", "C"] }

/-- The spec scenario's session start: history `["B", "C"]`, current "A". -/
def sBegin : PluginState := beginCycleSession envABC s0BC

/-- First forward step of the scenario. -/
def sStep1 : PluginState := stepCycle envABC stgOff sBegin Direction.forward

/-- Second forward step of the scenario. -/
def sStep2 : PluginState := stepCycle envABC stgOff sStep1 Direction.forward

/-- Backward step of the scenario. -/
def sStep3 : PluginState := stepCycle envABC stgOff sStep2 Direction.backward

/-- Gesture end of the scenario. -/
def sEnd : PluginState := endCycleSession stgOff sStep3

/-- Idle state whose persisted MRU entry "X" no longer resolves. -/
def s0X : PluginState := { initialState with mruDmChannelIds := ["X"] }

/-! Helper lemmas about `pushChannelToFront`. -/

theorem length_push_le (s : PluginState) (id : String) :
    (pushChannelToFront s id).mruDmChannelIds.length ≤ MAX_HISTORY := by
  simp only [pushChannelToFront]
  rw [List.length_take]
  exact min_le_left _ _

theorem foldl_push_length_le (ids : List String) (s : PluginState)
    (h : s.mruDmChannelIds.length ≤ MAX_HISTORY) :
    (ids.foldl pushChannelToFront s).mruDmChannelIds.length ≤ MAX_HISTORY := by
  induction ids generalizing s with
  | nil => simpa using h
  | cons a rest ih => exact ih _ (length_push_le s a)

theorem head?_push (s : PluginState) (id : String) :
    (pushChannelToFront s id).mruDmChannelIds.head? = some id := by
  simp only [pushChannelToFront]
  rw [show MAX_HISTORY = 49 + 1 from rfl, List.take_succ_cons]
  rfl

theorem count_push (s : PluginState) (id : String) :
    (pushChannelToFront s id).mruDmChannelIds.count id = 1 := by
  simp only [pushChannelToFront]
  rw [show MAX_HISTORY = 49 + 1 from rfl, List.take_succ_cons]
  have hmem : id ∉ (s.mruDmChannelIds.filter (fun x => x != id)).take 49 := by
    intro hm
    have hx := (List.take_sublist _ _).subset hm
    simp at hx
  rw [List.count_cons_self, List.count_eq_zero.mpr hmem]

/-- C6: after any finite sequence of promote calls starting from a bounded
History List, the list stays within `MAX_HISTORY`, and right after each
further promote the promoted identifier sits at the front and occurs
exactly once. -/
theorem promote_bound_front_unique (s : PluginState) (ids : List String) (id : String)
    (h : s.mruDmChannelIds.length ≤ MAX_HISTORY) :
    ((ids.foldl pushChannelToFront s).mruDmChannelIds.length ≤ MAX_HISTORY) ∧
    ((pushChannelToFront (ids.foldl pushChannelToFront s) id).mruDmChannelIds.length
        ≤ MAX_HISTORY) ∧
    ((pushChannelToFront (ids.foldl pushChannelToFront s) id).mruDmChannelIds.head?
        = some id) ∧
    ((pushChannelToFront (ids.foldl pushChannelToFront s) id).mruDmChannelIds.count id
        = 1) :=
  ⟨foldl_push_length_le ids s h, length_push_le _ _, head?_push _ _, count_push _ _⟩

/-- Witness for the promote invariants at a concrete state and sequence. -/
theorem promote_bound_front_unique_witness :
    s0BC.mruDmChannelIds.length ≤ MAX_HISTORY ∧
    (((["A", "B"] : List String).foldl pushChannelToFront s0BC).mruDmChannelIds.length
        ≤ MAX_HISTORY) ∧
    ((pushChannelToFront ((["A", "B"] : List String).foldl pushChannelToFront s0BC)
        ("C")).mruDmChannelIds.length ≤ MAX_HISTORY) ∧
    ((pushChannelToFront ((["A", "B"] : List String).foldl pushChannelToFront s0BC)
        ("C")).mruDmChannelIds.head? = some ("C")) ∧
    ((pushChannelToFront ((["A", "B"] : List String).foldl pushChannelToFront s0BC)
        ("C")).mruDmChannelIds.count ("C") = 1) := by
  have h := promote_bound_front_unique s0BC ["A", "B"] ("C") (by decide)
  exact ⟨by decide, h.1, h.2.1, h.2.2.1, h.2.2.2⟩

/-- C7: promoting an identifier unrelated to an active session's snapshot
leaves the frozen snapshot (and cursor) untouched — promote never writes
`cycleSnapshot`. -/
theorem snapshot_immutable_under_promote (s : PluginState) (id : String)
    (h : s.isCyclingSessionActive = true) (h2 : id ∉ s.cycleSnapshot) :
    (pushChannelToFront s id).cycleSnapshot = s.cycleSnapshot ∧
    (pushChannelToFront s id).cycleIndex = s.cycleIndex :=
  ⟨rfl, rfl⟩

/-- Witness: the concrete active session of the scenario, promoting "Z". -/
theorem snapshot_immutable_under_promote_witness :
    sBegin.isCyclingSessionActive = true ∧ "Z" ∉ sBegin.cycleSnapshot ∧
    ((pushChannelToFront sBegin ("Z")).cycleSnapshot = sBegin.cycleSnapshot ∧
      (pushChannelToFront sBegin ("Z")).cycleIndex = sBegin.cycleIndex) :=
  ⟨by decide, by decide,
    snapshot_immutable_under_promote sBegin ("Z") (by decide) (by decide)⟩

/-- C4 (counterexample): in the scenario History List = ["B","C"] with
current "A", the gesture begin, forward, forward, backward, end leaves the
History List at ["B","C"], not the claimed ["B","A","C"]. -/
theorem scenario_BAC_counterexample : sEnd.mruDmChannelIds ≠ ["B", "A", "C"] := by
  decide

/-- C4 (amended): begin snapshots ["A","B","C"] with cursor 0; the cursor
moves to 1, 2, then back to 1; end promotes the selected "B" onto the
history ["B","C"], leaving the History List equal to ["B","C"] ("A" is
never inserted by the gesture). -/
theorem scenario_BAC_amended :
    sBegin.cycleSnapshot = ["A", "B", "C"] ∧ sBegin.cycleIndex = 0 ∧
    sStep1.cycleIndex = 1 ∧ sStep2.cycleIndex = 2 ∧ sStep3.cycleIndex = 1 ∧
    sEnd.mruDmChannelIds = ["B", "C"] := by
  decide

/-- C2 (counterexample): running the clear action during an active session
leaves `isCyclingSessionActive` true afterwards — the session is not forced
to Idle by `clearMru`. -/
theorem clear_leaves_session_active :
    sBegin.isCyclingSessionActive = true ∧
    (clearMru sBegin).isCyclingSessionActive = true := by
  decide

/-- C2 (amended): clear during an active session empties the History List
and invalidates snapshot and cursor but leaves the session flag Active; a
subsequent end then commits nothing (no promote call, History List stays
empty) and only that end returns the session to Idle. -/
theorem clear_during_active_amended (stg : Settings) (s : PluginState)
    (h : s.isCyclingSessionActive = true) :
    (clearMru s).isCyclingSessionActive = true ∧
    (clearMru s).mruDmChannelIds = [] ∧
    (clearMru s).cycleSnapshot = [] ∧
    (clearMru s).cycleIndex = -1 ∧
    (endCycleSession stg (clearMru s)).promoteLog = s.promoteLog ∧
    (endCycleSession stg (clearMru s)).mruDmChannelIds = [] ∧
    (endCycleSession stg (clearMru s)).isCyclingSessionActive = false := by
  have hg : ¬((0 : Int) ≤ (clearMru s).cycleIndex ∧
      (clearMru s).cycleIndex < ((clearMru s).cycleSnapshot.length : Int)) := by
    simp [clearMru]
  refine ⟨by simpa [clearMru] using h, rfl, rfl, rfl, ?_, ?_, ?_⟩ <;>
    simp [endCycleSession, clearMru, h, snapAt]

/-- Witness: the amended clear behaviour at the concrete active session. -/
theorem clear_during_active_amended_witness :
    sBegin.isCyclingSessionActive = true ∧
    ((clearMru sBegin).isCyclingSessionActive = true ∧
      (clearMru sBegin).mruDmChannelIds = [] ∧
      (clearMru sBegin).cycleSnapshot = [] ∧
      (clearMru sBegin).cycleIndex = -1 ∧
      (endCycleSession stgOff (clearMru sBegin)).promoteLog = sBegin.promoteLog ∧
      (endCycleSession stgOff (clearMru sBegin)).mruDmChannelIds = [] ∧
      (endCycleSession stgOff (clearMru sBegin)).isCyclingSessionActive = false) :=
  ⟨by decide, clear_during_active_amended stgOff sBegin (by decide)⟩

/-! Helper lemmas about `stepCycle`. -/

theorem delta_cases (d : Direction) : d.delta = 1 ∨ d.delta = -1 := by
  cases d <;> simp [Direction.delta]

theorem stepCycle_fields (env : Env) (stg : Settings) (s : PluginState) (d : Direction) :
    (stepCycle env stg s d).isCyclingSessionActive = s.isCyclingSessionActive ∧
    (stepCycle env stg s d).suppressMruWhileCycling = s.suppressMruWhileCycling ∧
    (stepCycle env stg s d).cycleSnapshot = s.cycleSnapshot ∧
    (stepCycle env stg s d).mruDmChannelIds = s.mruDmChannelIds ∧
    (stepCycle env stg s d).promoteLog = s.promoteLog := by
  unfold stepCycle
  split
  · simp
  · split
    · simp
    · split
      · simp [stepAssign]
      · split_ifs <;> simp [stepAssign]

theorem stepCycle_noop_of_small (env : Env) (stg : Settings) (s : PluginState)
    (d : Direction) (h : s.cycleSnapshot.length ≤ 1) :
    stepCycle env stg s d = s := by
  by_cases hc1 : (!s.isCyclingSessionActive || s.cycleSnapshot.length == 0) = true
  · rw [stepCycle, if_pos hc1]
  · rw [stepCycle, if_neg hc1, if_pos h]

theorem stepCycle_noop_of_inactive (env : Env) (stg : Settings) (s : PluginState)
    (d : Direction) (h : s.isCyclingSessionActive = false) :
    stepCycle env stg s d = s := by
  unfold stepCycle
  rw [if_pos]
  simp [h]

theorem stepCycle_index_eq (env : Env) (stg : Settings) (s : PluginState) (d : Direction)
    (h1 : s.isCyclingSessionActive = true) (h2 : 2 ≤ s.cycleSnapshot.length) :
    (stepCycle env stg s d).cycleIndex =
      (s.cycleIndex + d.delta + (s.cycleSnapshot.length : Int)).tmod
        (s.cycleSnapshot.length : Int) := by
  have hc1 : ¬((!s.isCyclingSessionActive || s.cycleSnapshot.length == 0) = true) := by
    simp only [h1, Bool.not_true, Bool.false_or, beq_iff_eq]
    omega
  have hc2 : ¬(s.cycleSnapshot.length ≤ 1) := by omega
  unfold stepCycle
  rw [if_neg hc1, if_neg hc2]
  split
  · simp [stepAssign]
  · split_ifs <;> simp [stepAssign]

theorem stepCycle_index_emod (env : Env) (stg : Settings) (s : PluginState) (d : Direction)
    (h1 : s.isCyclingSessionActive = true) (h2 : 2 ≤ s.cycleSnapshot.length)
    (h3 : 0 ≤ s.cycleIndex) :
    (stepCycle env stg s d).cycleIndex =
      (s.cycleIndex + d.delta + (s.cycleSnapshot.length : Int)) %
        (s.cycleSnapshot.length : Int) := by
  rw [stepCycle_index_eq env stg s d h1 h2]
  have hnn : 0 ≤ s.cycleIndex + d.delta + (s.cycleSnapshot.length : Int) := by
    rcases delta_cases d with h | h <;> rw [h] <;> omega
  exact Int.tmod_eq_emod hnn (Int.natCast_nonneg _)

theorem iterate_forward_index (env : Env) (stg : Settings) (n : Nat) (hn : 2 ≤ n) :
    ∀ (k : Nat) (s : PluginState), s.isCyclingSessionActive = true →
      s.cycleSnapshot.length = n → 0 ≤ s.cycleIndex → s.cycleIndex < (n : Int) →
      (((fun t => stepCycle env stg t Direction.forward)^[k]) s).cycleIndex
          = (s.cycleIndex + k) % (n : Int) ∧
      (((fun t => stepCycle env stg t Direction.forward)^[k]) s).isCyclingSessionActive
          = true ∧
      (((fun t => stepCycle env stg t Direction.forward)^[k]) s).cycleSnapshot
          = s.cycleSnapshot := by
  intro k
  induction k with
  | zero =>
    intro s h1 h2 h3 h4
    refine ⟨?_, by simpa using h1, by simp⟩
    simpa using (Int.emod_eq_of_lt h3 h4).symm
  | succ k ih =>
    intro s h1 h2 h3 h4
    obtain ⟨hidx, hact, hsnap⟩ := ih s h1 h2 h3 h4
    have hlen : (((fun t => stepCycle env stg t Direction.forward)^[k]) s).cycleSnapshot.length
        = n := by rw [hsnap, h2]
    have hn0 : (n : Int) ≠ 0 := by omega
    have hstep := stepCycle_index_emod env stg
      (((fun t => stepCycle env stg t Direction.forward)^[k]) s) Direction.forward hact
      (by omega) (by rw [hidx]; exact Int.emod_nonneg _ hn0)
    have hfields := stepCycle_fields env stg
      (((fun t => stepCycle env stg t Direction.forward)^[k]) s) Direction.forward
    rw [Function.iterate_succ_apply']
    refine ⟨?_, by rw [hfields.1, hact], by rw [hfields.2.2.1, hsnap]⟩
    rw [hstep, hlen, hidx]
    have e1 : (s.cycleIndex + (k : Int)) % (n : Int) + Direction.forward.delta + (n : Int)
        = ((s.cycleIndex + (k : Int)) % (n : Int) + 1) + (n : Int) * 1 := by
      rw [show Direction.forward.delta = 1 from rfl]
      ring
    rw [e1, Int.add_mul_emod_self_left, Int.emod_add_emod]
    push_cast
    ring_nf

/-- C5: for an active session with snapshot length n at least 2 and cursor 0,
n consecutive forward steps return the cursor to 0, a single backward step
yields n - 1, and each step updates the cursor to
(cursor + delta + n) mod n. -/
theorem wraparound_correct (env : Env) (stg : Settings) (s : PluginState) (n : Nat)
    (d : Direction) (h1 : s.isCyclingSessionActive = true)
    (hlen : s.cycleSnapshot.length = n) (hn : 2 ≤ n) (h0 : s.cycleIndex = 0) :
    (((fun t => stepCycle env stg t Direction.forward)^[n]) s).cycleIndex = 0 ∧
    (stepCycle env stg s Direction.backward).cycleIndex = (n : Int) - 1 ∧
    (stepCycle env stg s d).cycleIndex
        = (s.cycleIndex + d.delta + (n : Int)) % (n : Int) := by
  have hidx0 : (0 : Int) ≤ s.cycleIndex := by rw [h0]
  have hidxlt : s.cycleIndex < (n : Int) := by rw [h0]; omega
  obtain ⟨hiter, -, -⟩ := iterate_forward_index env stg n hn n s h1 hlen hidx0 hidxlt
  refine ⟨?_, ?_, ?_⟩
  · rw [hiter, h0]
    simpa using Int.emod_self (n : Int)
  · rw [stepCycle_index_emod env stg s Direction.backward h1 (by omega) hidx0, hlen, h0]
    have : (0 : Int) + Direction.backward.delta + (n : Int) = (n : Int) - 1 := by
      rw [show Direction.backward.delta = -1 from rfl]
      ring
    rw [this]
    exact Int.emod_eq_of_lt (by omega) (by omega)
  · rw [stepCycle_index_emod env stg s d h1 (by omega) hidx0, hlen]

/-- Witness: the wraparound facts at the concrete three-entry session. -/
theorem wraparound_correct_witness :
    sBegin.isCyclingSessionActive = true ∧ sBegin.cycleSnapshot.length = 3 ∧
    2 ≤ 3 ∧ sBegin.cycleIndex = 0 ∧
    ((((fun t => stepCycle envABC stgOff t Direction.forward)^[3]) sBegin).cycleIndex = 0 ∧
      (stepCycle envABC stgOff sBegin Direction.backward).cycleIndex = (3 : Int) - 1 ∧
      (stepCycle envABC stgOff sBegin Direction.forward).cycleIndex
          = (sBegin.cycleIndex + Direction.forward.delta + (3 : Int)) % (3 : Int)) :=
  ⟨by decide, by decide, by decide, by decide,
    wraparound_correct envABC stgOff sBegin 3 Direction.forward (by decide) (by decide)
      (by decide) (by decide)⟩

/-! Flag-coupling invariant. -/

theorem push_flags (s : PluginState) (id : String) :
    (pushChannelToFront s id).isCyclingSessionActive = s.isCyclingSessionActive ∧
    (pushChannelToFront s id).suppressMruWhileCycling = s.suppressMruWhileCycling :=
  ⟨rfl, rfl⟩

theorem commitSelected_flags (stg : Settings) (s : PluginState) :
    (commitSelected stg s).isCyclingSessionActive = s.isCyclingSessionActive ∧
    (commitSelected stg s).suppressMruWhileCycling = s.suppressMruWhileCycling := by
  unfold commitSelected
  split
  · exact ⟨rfl, rfl⟩
  · split_ifs <;> simp [pushChannelToFront]

/-- C9: the equality of `suppressMruWhileCycling` and
`isCyclingSessionActive` holds in the initial state and is preserved by
every operation (begin and end set both together, stop clears both, and
step, clear, the flux handlers and promote touch neither). -/
theorem flags_invariant_preserved :
    flagsConsistent initialState ∧
    ∀ (op : Op) (s : PluginState), flagsConsistent s → flagsConsistent (applyOp op s) := by
  refine ⟨rfl, ?_⟩
  intro op s h
  cases op with
  | opBegin env =>
    simp only [applyOp, beginCycleSession]
    split
    · exact h
    · simp [flagsConsistent]
  | opStep env stg d =>
    have hf := stepCycle_fields env stg s d
    unfold flagsConsistent at *
    simp only [applyOp]
    rw [hf.1, hf.2.1]
    exact h
  | opEnd stg =>
    simp only [applyOp, endCycleSession]
    split
    · exact h
    · unfold flagsConsistent
      split
      · have hc := commitSelected_flags stg
          { s with isCyclingSessionActive := false, suppressMruWhileCycling := false }
        simpa using hc.2.trans hc.1.symm
      · rfl
  | opClear =>
    simpa [applyOp, clearMru, flagsConsistent] using h
  | opStop =>
    simp [applyOp, stopPlugin, flagsConsistent]
  | opChannelSelect env cid =>
    simp only [applyOp, channelSelect]
    split
    · exact h
    · split
      · exact h
      · split_ifs <;> exact h
  | opGuildSelect gid =>
    simp only [applyOp, guildSelect]
    split
    · exact h
    · split
      · exact h
      · split
        · exact h
        · split_ifs <;> exact h

/-- Witness: the invariant holds initially and survives the clear action. -/
theorem flags_invariant_witness :
    flagsConsistent initialState ∧ flagsConsistent (applyOp Op.opClear initialState) :=
  ⟨by rfl, flags_invariant_preserved.2 Op.opClear initialState (by rfl)⟩

/-! Empty-snapshot gestures. -/

theorem begin_fields (env : Env) (s : PluginState) (h : s.isCyclingSessionActive = false) :
    (beginCycleSession env s).isCyclingSessionActive = true ∧
    (beginCycleSession env s).suppressMruWhileCycling = true ∧
    (beginCycleSession env s).cycleIndex = 0 ∧
    (beginCycleSession env s).mruDmChannelIds = s.mruDmChannelIds ∧
    (beginCycleSession env s).promoteLog = s.promoteLog := by
  simp [beginCycleSession, h]

theorem foldl_step_empty (env : Env) (stg : Settings) (ds : List Direction) :
    ∀ (t : PluginState), t.cycleSnapshot = [] →
      ds.foldl (stepCycle env stg) t = t := by
  induction ds with
  | nil => intro t _; rfl
  | cons d rest ih =>
    intro t ht
    have hstep : stepCycle env stg t d = t :=
      stepCycle_noop_of_small env stg t d (by rw [ht]; simp)
    calc (d :: rest).foldl (stepCycle env stg) t
        = rest.foldl (stepCycle env stg) (stepCycle env stg t d) := rfl
      _ = rest.foldl (stepCycle env stg) t := by rw [hstep]
      _ = t := ih t ht

theorem endCycleSession_nocommit (stg : Settings) (s : PluginState)
    (h : ¬(0 ≤ s.cycleIndex ∧ s.cycleIndex < (s.cycleSnapshot.length : Int))) :
    (endCycleSession stg s).promoteLog = s.promoteLog ∧
    (endCycleSession stg s).mruDmChannelIds = s.mruDmChannelIds := by
  by_cases ha : (!s.isCyclingSessionActive) = true
  · rw [endCycleSession, if_pos ha]
    exact ⟨rfl, rfl⟩
  · rw [endCycleSession, if_neg ha, if_neg h]
    exact ⟨rfl, rfl⟩

/-- C10: when begin() produces an empty snapshot, every subsequent step is a
no-op leaving the cursor at 0, and end() performs no promote: the promote
log and the History List are unchanged across the whole gesture. -/
theorem empty_snapshot_no_commit (env : Env) (stg : Settings) (s : PluginState)
    (ds : List Direction)
    (hIdle : s.isCyclingSessionActive = false)
    (hempty : (beginCycleSession env s).cycleSnapshot = []) :
    (ds.foldl (stepCycle env stg) (beginCycleSession env s)).cycleIndex = 0 ∧
    (ds.foldl (stepCycle env stg) (beginCycleSession env s)).cycleSnapshot = [] ∧
    (ds.foldl (stepCycle env stg) (beginCycleSession env s)).mruDmChannelIds
        = s.mruDmChannelIds ∧
    (ds.foldl (stepCycle env stg) (beginCycleSession env s)).promoteLog = s.promoteLog ∧
    (endCycleSession stg (ds.foldl (stepCycle env stg) (beginCycleSession env s))).promoteLog
        = s.promoteLog ∧
    (endCycleSession stg
        (ds.foldl (stepCycle env stg) (beginCycleSession env s))).mruDmChannelIds
        = s.mruDmChannelIds := by
  obtain ⟨-, -, hidx, hmru, hlog⟩ := begin_fields env s hIdle
  have hfold := foldl_step_empty env stg ds (beginCycleSession env s) hempty
  rw [hfold, hidx, hempty, hmru, hlog]
  have hnc := endCycleSession_nocommit stg (beginCycleSession env s) (by
    rw [hidx, hempty]
    simp)
  exact ⟨rfl, rfl, rfl, rfl, hnc.1.trans hlog, hnc.2.trans hmru⟩

/-- Witness: a gesture over a history whose only entry does not resolve. -/
theorem empty_snapshot_no_commit_witness :
    s0X.isCyclingSessionActive = false ∧
    (beginCycleSession envNone s0X).cycleSnapshot = [] ∧
    (([Direction.forward].foldl (stepCycle envNone stgOff)
        (beginCycleSession envNone s0X)).cycleIndex = 0 ∧
      ([Direction.forward].foldl (stepCycle envNone stgOff)
        (beginCycleSession envNone s0X)).cycleSnapshot = [] ∧
      ([Direction.forward].foldl (stepCycle envNone stgOff)
        (beginCycleSession envNone s0X)).mruDmChannelIds = s0X.mruDmChannelIds ∧
      ([Direction.forward].foldl (stepCycle envNone stgOff)
        (beginCycleSession envNone s0X)).promoteLog = s0X.promoteLog ∧
      (endCycleSession stgOff ([Direction.forward].foldl (stepCycle envNone stgOff)
        (beginCycleSession envNone s0X))).promoteLog = s0X.promoteLog ∧
      (endCycleSession stgOff ([Direction.forward].foldl (stepCycle envNone stgOff)
        (beginCycleSession envNone s0X))).mruDmChannelIds = s0X.mruDmChannelIds) :=
  ⟨by decide, by decide,
    empty_snapshot_no_commit envNone stgOff s0X [Direction.forward] (by decide) (by decide)⟩

/-! Characterisation of `sanitizeHistory`. -/

theorem sanitizeLoop_eq (env : Env) (ids : List String) :
    ∀ (seen result : List String), result.length < MAX_HISTORY →
      sanitizeLoop env ids seen result
        = result ++ (dedupSeen env ids seen).take (MAX_HISTORY - result.length) := by
  induction ids with
  | nil =>
    intro seen result h
    simp [sanitizeLoop, dedupSeen]
  | cons id rest ih =>
    intro seen result h
    by_cases h1 : (id == "" || seen.contains id) = true
    · have hsplit : (id == "") = true ∨ seen.contains id = true := by
        cases hb : (id == "")
        · cases hcb : seen.contains id
          · rw [hb, hcb] at h1
            simp at h1
          · exact Or.inr rfl
        · exact Or.inl rfl
      have hg : (goodId env id && !seen.contains id) = false := by
        rcases hsplit with he | hc
        · have hgf : goodId env id = false := by
            unfold goodId
            rw [show (id != "") = !(id == "") from rfl, he]
            rfl
          rw [hgf]
          rfl
        · rw [hc]
          simp
      simp only [sanitizeLoop, dedupSeen]
      rw [if_pos h1, if_neg (by rw [hg]; simp)]
      exact ih seen result h
    · have hne : (id == "") = false := by
        cases hb : (id == "")
        · rfl
        · exact absurd (by rw [hb]; rfl) h1
      have hcon : seen.contains id = false := by
        cases hcb : seen.contains id
        · rfl
        · exact absurd (by rw [hcb]; simp) h1
      by_cases h2 : env.hasChannel id = true
      · by_cases h3 : isDirectMessageChannel env (some id) = true
        · have hgood : goodId env id = true := by
            unfold goodId
            rw [show (id != "") = !(id == "") from rfl, hne, h2, h3]
            rfl
          have hcond : (goodId env id && !seen.contains id) = true := by
            rw [hgood, hcon]
            rfl
          simp only [sanitizeLoop, dedupSeen]
          rw [if_neg h1, if_neg (by rw [h2]; simp), if_neg (by rw [h3]; simp),
            if_pos hcond]
          by_cases hfull : MAX_HISTORY ≤ (result ++ [id]).length
          · rw [if_pos hfull]
            have hlen : result.length + 1 = MAX_HISTORY := by
              simp only [List.length_append, List.length_cons, List.length_nil] at hfull
              omega
            rw [show MAX_HISTORY - result.length = 1 by omega]
            simp
          · rw [if_neg hfull]
            have hlt : (result ++ [id]).length < MAX_HISTORY := Nat.lt_of_not_le hfull
            rw [ih (id :: seen) (result ++ [id]) hlt]
            rw [show MAX_HISTORY - result.length
                = (MAX_HISTORY - (result ++ [id]).length) + 1 by
              simp only [List.length_append, List.length_cons, List.length_nil] at hlt ⊢
              omega]
            rw [List.take_succ_cons]
            simp
        · have h3f : isDirectMessageChannel env (some id) = false := by
            cases hb : isDirectMessageChannel env (some id)
            · rfl
            · exact absurd hb h3
          have hg : (goodId env id && !seen.contains id) = false := by
            have hgf : goodId env id = false := by
              unfold goodId
              rw [h3f]
              simp
            rw [hgf]
            rfl
          simp only [sanitizeLoop, dedupSeen]
          rw [if_neg h1, if_neg (by rw [h2]; simp), if_pos (by rw [h3f]; rfl),
            if_neg (by rw [hg]; simp)]
          exact ih seen result h
      · have h2f : env.hasChannel id = false := by
          cases hb : env.hasChannel id
          · rfl
          · exact absurd hb h2
        have hg : (goodId env id && !seen.contains id) = false := by
          have hgf : goodId env id = false := by
            unfold goodId
            rw [h2f]
            simp
          rw [hgf]
          rfl
        simp only [sanitizeLoop, dedupSeen]
        rw [if_neg h1, if_pos (by rw [h2f]; rfl), if_neg (by rw [hg]; simp)]
        exact ih seen result h

theorem sanitizeHistory_eq_take (env : Env) (ids : List String) :
    sanitizeHistory env ids = (dedupSeen env ids []).take MAX_HISTORY := by
  have h := sanitizeLoop_eq env ids [] [] (by norm_num [MAX_HISTORY])
  simpa [sanitizeHistory] using h

theorem mem_dedupSeen (env : Env) :
    ∀ (ids seen : List String) (x : String), x ∈ dedupSeen env ids seen →
      goodId env x = true ∧ seen.contains x = false := by
  intro ids
  induction ids with
  | nil =>
    intro seen x hx
    simp [dedupSeen] at hx
  | cons id rest ih =>
    intro seen x hx
    rw [dedupSeen] at hx
    by_cases hc : (goodId env id && !seen.contains id) = true
    · rw [if_pos hc] at hx
      have hg : goodId env id = true := by
        cases hb : goodId env id
        · rw [hb] at hc
          simp at hc
        · rfl
      have hs : (!seen.contains id) = true := by
        cases hcb : seen.contains id
        · rfl
        · rw [hcb] at hc
          simp at hc
      rcases List.mem_cons.mp hx with rfl | hx'
      · refine ⟨hg, ?_⟩
        cases hcb : seen.contains x
        · rfl
        · rw [hcb] at hs
          simp at hs
      · obtain ⟨hg', hs'⟩ := ih (id :: seen) x hx'
        refine ⟨hg', ?_⟩
        simp only [List.contains_cons, Bool.or_eq_false_iff] at hs'
        exact hs'.2
    · rw [if_neg hc] at hx
      exact ih seen x hx

theorem dedupSeen_nodup (env : Env) :
    ∀ (ids seen : List String), (dedupSeen env ids seen).Nodup := by
  intro ids
  induction ids with
  | nil => intro seen; simp [dedupSeen]
  | cons id rest ih =>
    intro seen
    rw [dedupSeen]
    split
    · rw [List.nodup_cons]
      refine ⟨?_, ih (id :: seen)⟩
      intro hmem
      have hcontra := (mem_dedupSeen env rest (id :: seen) id hmem).2
      simp [List.contains_cons] at hcontra
    · exact ih seen

theorem dedupSeen_sublist (env : Env) :
    ∀ (ids seen : List String), (dedupSeen env ids seen).Sublist ids := by
  intro ids
  induction ids with
  | nil => intro seen; simp [dedupSeen]
  | cons id rest ih =>
    intro seen
    rw [dedupSeen]
    split
    · exact List.Sublist.cons₂ id (ih (id :: seen))
    · exact List.Sublist.cons id (ih seen)

theorem dedupFirst_cons (x : String) (xs : List String) :
    dedupFirst (x :: xs) = x :: dedupFirst (xs.filter (fun y => y != x)) := by
  rw [dedupFirst]

theorem dedupFirst_sublist_aux :
    ∀ (n : Nat) (l : List String), l.length ≤ n → (dedupFirst l).Sublist l := by
  intro n
  induction n with
  | zero =>
    intro l hl
    have hnil : l = [] := List.length_eq_zero.mp (Nat.le_zero.mp hl)
    subst hnil
    simp [dedupFirst]
  | succ n ih =>
    intro l hl
    cases l with
    | nil => simp [dedupFirst]
    | cons x xs =>
      rw [dedupFirst_cons]
      refine List.Sublist.cons₂ x ?_
      refine (ih (xs.filter (fun y => y != x)) ?_).trans (List.filter_sublist _)
      have hf := List.length_filter_le (fun y => y != x) xs
      simp only [List.length_cons] at hl
      omega

theorem dedupFirst_sublist (l : List String) : (dedupFirst l).Sublist l :=
  dedupFirst_sublist_aux l.length l le_rfl

theorem dedupFirst_nodup_aux :
    ∀ (n : Nat) (l : List String), l.length ≤ n → (dedupFirst l).Nodup := by
  intro n
  induction n with
  | zero =>
    intro l hl
    have hnil : l = [] := List.length_eq_zero.mp (Nat.le_zero.mp hl)
    subst hnil
    simp [dedupFirst]
  | succ n ih =>
    intro l hl
    cases l with
    | nil => simp [dedupFirst]
    | cons x xs =>
      rw [dedupFirst_cons, List.nodup_cons]
      constructor
      · intro hmem
        have hx := (dedupFirst_sublist _).subset hmem
        simp at hx
      · apply ih
        have hf := List.length_filter_le (fun y => y != x) xs
        simp only [List.length_cons] at hl
        omega

theorem dedupFirst_nodup (l : List String) : (dedupFirst l).Nodup :=
  dedupFirst_nodup_aux l.length l le_rfl

theorem dedupSeen_eq_dedupFirst (env : Env) :
    ∀ (ids seen : List String),
      dedupSeen env ids seen
        = dedupFirst ((ids.filter (goodId env)).filter (fun x => !seen.contains x)) := by
  intro ids
  induction ids with
  | nil => intro seen; simp [dedupSeen, dedupFirst]
  | cons id rest ih =>
    intro seen
    by_cases hg : goodId env id = true
    · by_cases hs : seen.contains id = true
      · have hcond : (goodId env id && !seen.contains id) = false := by
          rw [hs]
          simp
        simp only [dedupSeen]
        rw [if_neg (by rw [hcond]; simp)]
        rw [show ((id :: rest).filter (goodId env)) = id :: rest.filter (goodId env) from by
          simp [List.filter_cons, hg]]
        rw [show ((id :: rest.filter (goodId env)).filter (fun x => !seen.contains x))
            = (rest.filter (goodId env)).filter (fun x => !seen.contains x) from by
          have hmem : id ∈ seen := by simpa using hs
          simp [List.filter_cons, hmem]]
        exact ih seen
      · have hsf : seen.contains id = false := by
          cases hb : seen.contains id
          · rfl
          · exact absurd hb hs
        have hcond : (goodId env id && !seen.contains id) = true := by
          rw [hg, hsf]
          rfl
        simp only [dedupSeen]
        rw [if_pos hcond, ih (id :: seen)]
        have hfilters : (rest.filter (goodId env)).filter (fun x => !(id :: seen).contains x)
            = ((rest.filter (goodId env)).filter (fun x => !seen.contains x)).filter
                (fun y => y != id) := by
          simp only [List.filter_filter]
          apply List.filter_congr
          intro a _
          simp only [List.contains_cons, Bool.not_or, Bool.and_assoc]
          rfl
        rw [hfilters]
        rw [show ((id :: rest).filter (goodId env)) = id :: rest.filter (goodId env) from by
          simp [List.filter_cons, hg]]
        rw [show ((id :: rest.filter (goodId env)).filter (fun x => !seen.contains x))
            = id :: (rest.filter (goodId env)).filter (fun x => !seen.contains x) from by
          have hnmem : id ∉ seen := by simpa using hsf
          simp [List.filter_cons, hnmem]]
        rw [dedupFirst_cons]
    · have hgf : goodId env id = false := by
        cases hb : goodId env id
        · rfl
        · exact absurd hb hg
      have hcond : (goodId env id && !seen.contains id) = false := by
        rw [hgf]
        rfl
      simp only [dedupSeen]
      rw [if_neg (by rw [hcond]; simp)]
      rw [show ((id :: rest).filter (goodId env)) = rest.filter (goodId env) from by
        simp [List.filter_cons, hgf]]
      exact ih seen

theorem sanitizeHistory_characterisation (env : Env) (ids : List String) :
    sanitizeHistory env ids
      = (dedupFirst (ids.filter (goodId env))).take MAX_HISTORY := by
  rw [sanitizeHistory_eq_take, dedupSeen_eq_dedupFirst]
  rw [show ((ids.filter (goodId env)).filter (fun x => !([] : List String).contains x))
      = ids.filter (goodId env) from
    List.filter_eq_self.mpr (fun a _ => rfl)]

theorem sanitizeHistory_nodup (env : Env) (ids : List String) :
    (sanitizeHistory env ids).Nodup := by
  rw [sanitizeHistory_eq_take]
  exact (List.take_sublist _ _).nodup (dedupSeen_nodup env ids [])

theorem sanitizeHistory_sublist (env : Env) (ids : List String) :
    (sanitizeHistory env ids).Sublist ids := by
  rw [sanitizeHistory_eq_take]
  exact (List.take_sublist _ _).trans (dedupSeen_sublist env ids [])

theorem mem_sanitizeHistory_good (env : Env) (ids : List String) (x : String)
    (hx : x ∈ sanitizeHistory env ids) : goodId env x = true := by
  rw [sanitizeHistory_eq_take] at hx
  exact (mem_dedupSeen env ids [] x ((List.take_sublist _ _).subset hx)).1

theorem sanitizeHistory_length_le (env : Env) (ids : List String) :
    (sanitizeHistory env ids).length ≤ MAX_HISTORY := by
  rw [sanitizeHistory_eq_take, List.length_take]
  exact min_le_left _ _

theorem goodId_unpack (env : Env) (x : String) (h : goodId env x = true) :
    x ≠ "" ∧ env.hasChannel x = true ∧ isDirectMessageChannel env (some x) = true := by
  simp only [goodId, Bool.and_eq_true, bne_iff_ne] at h
  exact ⟨h.1.1, h.1.2, h.2⟩

/-- C3: sanitizeHistory is exactly the first-occurrence deduplication of the
eligibility filter, capped at MAX_HISTORY; hence its output has no repeated
identifier, is an order-preserving sublist of the input, keeps only truthy
identifiers that resolve to an existing, DM-eligible conversation, and has
length at most 50. -/
theorem sanitizeHistory_spec (env : Env) (ids : List String) :
    sanitizeHistory env ids
        = (dedupFirst (ids.filter (goodId env))).take MAX_HISTORY ∧
    (sanitizeHistory env ids).Nodup ∧
    (sanitizeHistory env ids).Sublist ids ∧
    (∀ x ∈ sanitizeHistory env ids,
        x ≠ "" ∧ env.hasChannel x = true ∧ isDirectMessageChannel env (some x) = true) ∧
    (sanitizeHistory env ids).length ≤ MAX_HISTORY :=
  ⟨sanitizeHistory_characterisation env ids, sanitizeHistory_nodup env ids,
    sanitizeHistory_sublist env ids,
    fun x hx => goodId_unpack env x (mem_sanitizeHistory_good env ids x hx),
    sanitizeHistory_length_le env ids⟩

/-- Witness: the sanitize contract at a concrete dirty input. -/
theorem sanitizeHistory_spec_witness :
    sanitizeHistory envABC ["A", "", "A", "B", "X", "C", "B"]
        = (dedupFirst ((["A", "", "A", "B", "X", "C", "B"] : List String).filter
            (goodId envABC))).take MAX_HISTORY ∧
    (sanitizeHistory envABC ["A", "", "A", "B", "X", "C", "B"]).Nodup ∧
    (sanitizeHistory envABC ["A", "", "A", "B", "X", "C", "B"]).Sublist
        ["A", "", "A", "B", "X", "C", "B"] ∧
    (∀ x ∈ sanitizeHistory envABC ["A", "", "A", "B", "X", "C", "B"],
        x ≠ "" ∧ envABC.hasChannel x = true ∧
          isDirectMessageChannel envABC (some x) = true) ∧
    (sanitizeHistory envABC ["A", "", "A", "B", "X", "C", "B"]).length ≤ MAX_HISTORY :=
  sanitizeHistory_spec envABC ["A", "", "A", "B", "X", "C", "B"]

/-! Single commit point. -/

theorem begin_snapshot (env : Env) (s : PluginState) (h : s.isCyclingSessionActive = false) :
    (beginCycleSession env s).cycleSnapshot
      = sanitizeHistory env
          ((if isDirectMessageChannel env env.currentChannelId then
              [env.currentChannelId.getD ("")]
            else []) ++ s.mruDmChannelIds) := by
  simp [beginCycleSession, h]

theorem stepCycle_bounds (env : Env) (stg : Settings) (s : PluginState) (d : Direction)
    (h3 : 0 ≤ s.cycleIndex) (h4 : s.cycleIndex < (s.cycleSnapshot.length : Int)) :
    0 ≤ (stepCycle env stg s d).cycleIndex ∧
    (stepCycle env stg s d).cycleIndex
        < ((stepCycle env stg s d).cycleSnapshot.length : Int) := by
  by_cases h1 : s.isCyclingSessionActive = true
  · by_cases h2 : 2 ≤ s.cycleSnapshot.length
    · have hsnap := (stepCycle_fields env stg s d).2.2.1
      rw [stepCycle_index_emod env stg s d h1 h2 h3, hsnap]
      have hn0 : ((s.cycleSnapshot.length : Int)) ≠ 0 := by omega
      exact ⟨Int.emod_nonneg _ hn0, Int.emod_lt_of_pos _ (by omega)⟩
    · rw [stepCycle_noop_of_small env stg s d (by omega)]
      exact ⟨h3, h4⟩
  · have h1f : s.isCyclingSessionActive = false := by
      cases hb : s.isCyclingSessionActive
      · rfl
      · exact absurd hb h1
    rw [stepCycle_noop_of_inactive env stg s d h1f]
    exact ⟨h3, h4⟩

theorem channelSelect_suppressed (env2 : Env) (s : PluginState) (cid : Option String)
    (h : s.suppressMruWhileCycling = true) : channelSelect env2 s cid = s := by
  rw [channelSelect.eq_def, if_pos h]

theorem commitSelected_promote (stg : Settings) (s : PluginState) (t : String)
    (hsnap : snapAt s.cycleSnapshot s.cycleIndex = some t) (hne : t ≠ "") :
    (commitSelected stg s).promoteLog = s.promoteLog ++ [t] := by
  unfold commitSelected
  split
  · next heq =>
    rw [hsnap] at heq
    simp at heq
  · next sel heq =>
    rw [hsnap] at heq
    have ht : t = sel := by
      simpa using heq
    subst ht
    rw [if_neg (by simp [hne])]
    split_ifs <;> simp [pushChannelToFront]

theorem endCycleSession_commit (stg : Settings) (s : PluginState)
    (hact : s.isCyclingSessionActive = true)
    (h1 : 0 ≤ s.cycleIndex) (h2 : s.cycleIndex < (s.cycleSnapshot.length : Int))
    (t : String) (ht : s.cycleSnapshot.get? s.cycleIndex.toNat = some t) (hne : t ≠ "") :
    (endCycleSession stg s).promoteLog = s.promoteLog ++ [t] ∧
    (endCycleSession stg s).isCyclingSessionActive = false := by
  have hsnap : snapAt s.cycleSnapshot s.cycleIndex = some t := by
    rw [snapAt, if_pos h1]
    exact ht
  rw [endCycleSession, if_neg (by simp [hact]), if_pos ⟨h1, h2⟩]
  constructor
  · exact commitSelected_promote stg
      { s with isCyclingSessionActive := false, suppressMruWhileCycling := false } t hsnap hne
  · exact (commitSelected_flags stg
      { s with isCyclingSessionActive := false, suppressMruWhileCycling := false }).1

/-- C1: across begin, step, step, end with instantSwitch off, the promote
operation runs exactly once, at end, with the identifier at the final
cursor position: begin and both steps leave the promote log unchanged,
end appends exactly the final cursor's identifier, and a CHANNEL_SELECT
delivered while the session is Active leaves the state (hence the promote
log) unchanged. -/
theorem single_commit_point (env env2 : Env) (stg : Settings) (s : PluginState)
    (d1 d2 : Direction) (cid : Option String)
    (hIdle : s.isCyclingSessionActive = false)
    (hInst : stg.instantSwitch = false)
    (hne : (beginCycleSession env s).cycleSnapshot ≠ []) :
    (beginCycleSession env s).promoteLog = s.promoteLog ∧
    (stepCycle env stg (beginCycleSession env s) d1).promoteLog = s.promoteLog ∧
    (stepCycle env stg (stepCycle env stg (beginCycleSession env s) d1) d2).promoteLog
        = s.promoteLog ∧
    (stepCycle env stg (stepCycle env stg (beginCycleSession env s) d1) d2).cycleIndex.toNat
        < (stepCycle env stg (stepCycle env stg (beginCycleSession env s) d1)
            d2).cycleSnapshot.length ∧
    (endCycleSession stg
        (stepCycle env stg (stepCycle env stg (beginCycleSession env s) d1) d2)).promoteLog
      = s.promoteLog ++
        [(stepCycle env stg (stepCycle env stg (beginCycleSession env s) d1)
            d2).cycleSnapshot.getD
          (stepCycle env stg (stepCycle env stg (beginCycleSession env s) d1)
            d2).cycleIndex.toNat ("")] ∧
    (channelSelect env2 (beginCycleSession env s) cid) = beginCycleSession env s ∧
    (channelSelect env2 (stepCycle env stg (beginCycleSession env s) d1) cid)
        = stepCycle env stg (beginCycleSession env s) d1 ∧
    (channelSelect env2 (stepCycle env stg (stepCycle env stg (beginCycleSession env s) d1)
        d2) cid)
      = stepCycle env stg (stepCycle env stg (beginCycleSession env s) d1) d2 := by
  obtain ⟨hact1, hsup1, hidx1, hmru1, hlog1⟩ := begin_fields env s hIdle
  have hf1 := stepCycle_fields env stg (beginCycleSession env s) d1
  have hf2 := stepCycle_fields env stg (stepCycle env stg (beginCycleSession env s) d1) d2
  have hlog2 := hf1.2.2.2.2.trans hlog1
  have hlog3 := hf2.2.2.2.2.trans hlog2
  have hsnap2 := hf1.2.2.1
  have hsnap3 := hf2.2.2.1.trans hsnap2
  have hact2 := hf1.1.trans hact1
  have hact3 := hf2.1.trans hact2
  have hsup2 := hf1.2.1.trans hsup1
  have hsup3 := hf2.2.1.trans hsup2
  have hlen1 : 0 < (beginCycleSession env s).cycleSnapshot.length :=
    List.length_pos.mpr hne
  have hb1 : 0 ≤ (beginCycleSession env s).cycleIndex ∧
      (beginCycleSession env s).cycleIndex
        < ((beginCycleSession env s).cycleSnapshot.length : Int) := by
    rw [hidx1]
    exact ⟨le_refl 0, by exact_mod_cast hlen1⟩
  have hb2 := stepCycle_bounds env stg (beginCycleSession env s) d1 hb1.1 hb1.2
  have hb3 := stepCycle_bounds env stg (stepCycle env stg (beginCycleSession env s) d1) d2
    hb2.1 hb2.2
  have hnat3 : (stepCycle env stg (stepCycle env stg (beginCycleSession env s) d1)
      d2).cycleIndex.toNat
      < (stepCycle env stg (stepCycle env stg (beginCycleSession env s) d1)
          d2).cycleSnapshot.length := by
    obtain ⟨hb3a, hb3b⟩ := hb3
    omega
  obtain ⟨t, ht⟩ : ∃ t, (stepCycle env stg (stepCycle env stg (beginCycleSession env s) d1)
      d2).cycleSnapshot.get? (stepCycle env stg (stepCycle env stg
        (beginCycleSession env s) d1) d2).cycleIndex.toNat = some t :=
    ⟨_, List.get?_eq_get hnat3⟩
  have htD : (stepCycle env stg (stepCycle env stg (beginCycleSession env s) d1)
      d2).cycleSnapshot.getD (stepCycle env stg (stepCycle env stg
        (beginCycleSession env s) d1) d2).cycleIndex.toNat ("") = t := by
    rw [List.getD_eq_get?, ht]
    rfl
  have hmem : t ∈ (stepCycle env stg (stepCycle env stg (beginCycleSession env s) d1)
      d2).cycleSnapshot := List.get?_mem ht
  have hgood : goodId env t = true := by
    apply mem_sanitizeHistory_good env _ t
    rw [← begin_snapshot env s hIdle, ← hsnap3]
    exact hmem
  have hne_t : t ≠ "" := (goodId_unpack env t hgood).1
  have hend := endCycleSession_commit stg
    (stepCycle env stg (stepCycle env stg (beginCycleSession env s) d1) d2)
    hact3 hb3.1 hb3.2 t ht hne_t
  refine ⟨hlog1, hlog2, hlog3, hnat3, ?_, ?_, ?_, ?_⟩
  · rw [htD, hend.1, hlog3]
  · exact channelSelect_suppressed env2 _ cid hsup1
  · exact channelSelect_suppressed env2 _ cid hsup2
  · exact channelSelect_suppressed env2 _ cid hsup3

/-- Witness: the single-commit gesture at the concrete scenario state. -/
theorem single_commit_point_witness :
    s0BC.isCyclingSessionActive = false ∧ stgOff.instantSwitch = false ∧
    sBegin.cycleSnapshot ≠ [] ∧
    (sBegin.promoteLog = s0BC.promoteLog ∧
      sStep1.promoteLog = s0BC.promoteLog ∧
      sStep2.promoteLog = s0BC.promoteLog ∧
      sStep2.cycleIndex.toNat < sStep2.cycleSnapshot.length ∧
      (endCycleSession stgOff sStep2).promoteLog
        = s0BC.promoteLog ++ [sStep2.cycleSnapshot.getD sStep2.cycleIndex.toNat ("")] ∧
      (channelSelect envABC sBegin (some ("C"))) = sBegin ∧
      (channelSelect envABC sStep1 (some ("C"))) = sStep1 ∧
      (channelSelect envABC sStep2 (some ("C"))) = sStep2) :=
  ⟨by decide, by decide, by decide,
    single_commit_point envABC envABC stgOff s0BC Direction.forward Direction.forward
      (some ("C")) (by decide) (by decide) (by decide)⟩

/-! Row-mode pagination. -/

/-- C8: in row mode the pagination is the pure function of
(snapshot, cursor, rowLength) given by the spec's formulas: the working
list is the first min(2 x pageSize, |snapshot|) entries, pageCount is 2
exactly when the working list exceeds one page, currentPage is
min(pageCount - 1, cursor / pageSize), and the window is the slice
[currentPage x pageSize, min((currentPage + 1) x pageSize, |workingList|));
in particular for snapshot length 8, pageSize 5 and cursor 6 the page
count is 2, the current page is 1 and the window is indices [5, 8). -/
theorem rowWindow_spec (snapshot : List String) (cursor : Int) (rowLength : Int)
    (h : 0 ≤ cursor) :
    (computeRowWindow snapshot cursor rowLength).visibleList
        = snapshot.take (min (2 * clampRowLength rowLength) snapshot.length) ∧
    (computeRowWindow snapshot cursor rowLength).pageCount
        = (if clampRowLength rowLength
              < (computeRowWindow snapshot cursor rowLength).visibleList.length
           then 2 else 1) ∧
    (computeRowWindow snapshot cursor rowLength).currentPage
        = min ((computeRowWindow snapshot cursor rowLength).pageCount - 1)
            (cursor.toNat / clampRowLength rowLength) ∧
    (computeRowWindow snapshot cursor rowLength).pageItems
        = ((computeRowWindow snapshot cursor rowLength).visibleList.take
            (min (((computeRowWindow snapshot cursor rowLength).currentPage + 1)
                * clampRowLength rowLength)
              (computeRowWindow snapshot cursor rowLength).visibleList.length)).drop
            ((computeRowWindow snapshot cursor rowLength).currentPage
              * clampRowLength rowLength) ∧
    computeRowWindow ["c1", "c2", "c3", "c4", "c5", "c6", "c7", "c8"] 6 5
        = { visibleList := ["c1", "c2", "c3", "c4", "c5", "c6", "c7", "c8"]
            pageCount := 2
            currentPage := 1
            pageItems := ["c6", "c7", "c8"] } := by
  refine ⟨?_, ?_, ?_, ?_, by decide⟩
  · simp only [computeRowWindow, clampRowLength]
    rw [List.take_eq_take]
    omega
  · simp only [computeRowWindow, clampRowLength]
  · simp only [computeRowWindow, clampRowLength]
    rw [if_pos h]
  · simp only [computeRowWindow, clampRowLength, Nat.succ_mul]

/-- Witness: the pagination contract at the concrete eight-entry snapshot. -/
theorem rowWindow_spec_witness :
    (0 : Int) ≤ 6 ∧
    ((computeRowWindow ["c1", "c2", "c3", "c4", "c5", "c6", "c7", "c8"] 6 5).visibleList
        = (["c1", "c2", "c3", "c4", "c5", "c6", "c7", "c8"] : List String).take
            (min (2 * clampRowLength 5)
              (["c1", "c2", "c3", "c4", "c5", "c6", "c7", "c8"] : List String).length) ∧
      (computeRowWindow ["c1", "c2", "c3", "c4", "c5", "c6", "c7", "c8"] 6 5).pageCount
        = (if clampRowLength 5
              < (computeRowWindow ["c1", "c2", "c3", "c4", "c5", "c6", "c7", "c8"]
                  6 5).visibleList.length
           then 2 else 1) ∧
      (computeRowWindow ["c1", "c2", "c3", "c4", "c5", "c6", "c7", "c8"] 6 5).currentPage
        = min ((computeRowWindow ["c1", "c2", "c3", "c4", "c5", "c6", "c7", "c8"]
              6 5).pageCount - 1)
            ((6 : Int).toNat / clampRowLength 5) ∧
      (computeRowWindow ["c1", "c2", "c3", "c4", "c5", "c6", "c7", "c8"] 6 5).pageItems
        = ((computeRowWindow ["c1", "c2", "c3", "c4", "c5", "c6", "c7", "c8"]
              6 5).visibleList.take
            (min (((computeRowWindow ["c1", "c2", "c3", "c4", "c5", "c6", "c7", "c8"]
                  6 5).currentPage + 1) * clampRowLength 5)
              (computeRowWindow ["c1", "c2", "c3", "c4", "c5", "c6", "c7", "c8"]
                  6 5).visibleList.length)).drop
            ((computeRowWindow ["c1", "c2", "c3", "c4", "c5", "c6", "c7", "c8"]
                6 5).currentPage * clampRowLength 5) ∧
      computeRowWindow ["c1", "c2", "c3", "c4", "c5", "c6", "c7", "c8"] 6 5
        = { visibleList := ["c1", "c2", "c3", "c4", "c5", "c6", "c7", "c8"]
            pageCount := 2
            currentPage := 1
            pageItems := ["c6", "c7", "c8"] }) :=
  ⟨by decide, rowWindow_spec ["c1", "c2", "c3", "c4", "c5", "c6", "c7", "c8"] 6 5 (by decide)⟩

end DmMruSwitch
